import Mathlib

/-!
Verification development for the ataurus feature-extraction core
(`ataurus/features/functions.py`, `ataurus/serialize/model.py`).

Python regexes are embedded as explicit matching functions over `List Char`,
Python floats as `ℚ`, `np.nan` / `None` sentinels as `Option`, a Python
exception as `Option`/error component, and the external morphological
service (pymorphy2) as an explicit oracle parameter.
-/

namespace Ataurus

/-! ### Character classes of the category regexes (functions.py lines 11-15) -/

/-- The character class of `DIVIDING_PUNCTS = re.compile(r"[,;:‑–—−-]")`:
comma, semicolon, colon, non-breaking hyphen U+2011, en dash U+2013,
em dash U+2014, minus sign U+2212, hyphen-minus. -/
def isDividingChar (c : Char) : Bool :=
  c == ',' || c == ';' || c == ':' || c == '‑' || c == '–' || c == '—' || c == '−' || c == '-'

/-- Modelled from the spec: `HIGHLIGHT_PUNCTS` is built from razdel's
`BRACKETS` and `QUOTES` constants, an external collaborator not in src;
per §4.1 it is "any bracket or quotation character from a fixed
bracket/quote alphabet". -/
def isHighlightChar (c : Char) : Bool :=
  c == '(' || c == ')' || c == '[' || c == ']' || c == '{' || c == '}' ||
  c == '«' || c == '»' || c == '„' || c == '“' || c == '”' ||
  c == '‘' || c == '’' || c == '"' || c == Char.ofNat 39

/-- The character class of `DIGITS_PUNCTS = re.compile(r"[+$/*%^]")`. -/
def isDigitsChar (c : Char) : Bool :=
  c == '+' || c == '$' || c == '/' || c == '*' || c == '%' || c == '^'

/-- The single-character fallback class `[….?!]` of `DEFINITIVE_PUNCTS`. -/
def isDefSingleChar (c : Char) : Bool :=
  c == '…' || c == '.' || c == '?' || c == '!'

/-! ### The DEFINITIVE_PUNCTS regex (functions.py line 11)

`DEFINITIVE_PUNCTS = re.compile(r"(...)|(\?!)|(\?\.{2,3})|(!\.{2,3})|(!!!)|([….?!])")`.

Python alternation tries branches left to right at each position; the first
branch `(...)` is three UNESCAPED dots, i.e. any three characters other
than newline.  The `{2,3}` quantifiers are greedy (three dots tried before
two).  Each function below tries one branch and falls through to the next. -/

/-- Branch 6 of `DEFINITIVE_PUNCTS`: the single-character class `([….?!])`. -/
def defAlt6 (l : List Char) : Option Nat :=
  match l with
  | c :: _ => if isDefSingleChar c then some 1 else none
  | [] => none

/-- Branch 5 of `DEFINITIVE_PUNCTS`: `(!!!)`, else fall through. -/
def defAlt5 (l : List Char) : Option Nat :=
  match l with
  | '!' :: '!' :: '!' :: _ => some 3
  | _ => defAlt6 l

/-- Branch 4 of `DEFINITIVE_PUNCTS`: `(!\.{2,3})` (greedy), else fall through. -/
def defAlt4 (l : List Char) : Option Nat :=
  match l with
  | '!' :: '.' :: '.' :: '.' :: _ => some 4
  | '!' :: '.' :: '.' :: _ => some 3
  | _ => defAlt5 l

/-- Branch 3 of `DEFINITIVE_PUNCTS`: `(\?\.{2,3})` (greedy), else fall through. -/
def defAlt3 (l : List Char) : Option Nat :=
  match l with
  | '?' :: '.' :: '.' :: '.' :: _ => some 4
  | '?' :: '.' :: '.' :: _ => some 3
  | _ => defAlt4 l

/-- Branch 2 of `DEFINITIVE_PUNCTS`: `(\?!)`, else fall through. -/
def defAlt2 (l : List Char) : Option Nat :=
  match l with
  | '?' :: '!' :: _ => some 2
  | _ => defAlt3 l

/-- The whole `DEFINITIVE_PUNCTS` alternation at one position.  The first
branch `(...)` matches any three non-newline characters (the dots are not
escaped in the source); only when it fails are the later branches tried. -/
def definitiveMatchLen (l : List Char) : Option Nat :=
  match l with
  | a :: b :: c :: _ =>
    if a ≠ '\n' ∧ b ≠ '\n' ∧ c ≠ '\n' then some 3 else defAlt2 l
  | _ => defAlt2 l

/-! ### The SMILES pattern (functions.py line 14) -/

/-- Length of the leading run of `)` / `(` characters. -/
def smileTail : List Char → Nat
  | c :: rest => if c == ')' || c == '(' then smileTail rest + 1 else 0
  | [] => 0

/-- Modelled from the spec: `SMILES_PUNCTS` compiles razdel's `SMILES`
pattern, an external collaborator not in src; per §4.1 it is "a fixed
emoticon pattern set": an eye character, an optional nose dash and a
nonempty greedy mouth run of parentheses. -/
def smilesMatchLen (l : List Char) : Option Nat :=
  match l with
  | c :: rest =>
    if c == ':' || c == ';' || c == '=' then
      match rest with
      | '-' :: rest2 =>
        let k := smileTail rest2
        if k ≠ 0 then some (2 + k) else none
      | _ =>
        let k := smileTail rest
        if k ≠ 0 then some (1 + k) else none
    else none
  | [] => none

/-! ### `re.findall` scanning: non-overlapping, leftmost-first -/

/-- One scan step of `re.findall`: at each position try the matcher; on a
match of length `n` record the span `(pos, n)` and resume after it, else
advance one character.  `fuel` bounds the recursion (the text length
suffices because every step consumes at least one character). -/
def findallSpansAux (matchLen : List Char → Option Nat) :
    Nat → Nat → List Char → List (Nat × Nat)
  | 0, _, _ => []
  | _, _, [] => []
  | fuel + 1, pos, l@(_ :: rest) =>
    match matchLen l with
    | some n => (pos, max n 1) :: findallSpansAux matchLen fuel (pos + max n 1) (l.drop (max n 1))
    | none => findallSpansAux matchLen fuel (pos + 1) rest

/-- The spans of all non-overlapping leftmost matches in the text. -/
def findallSpans (matchLen : List Char → Option Nat) (l : List Char) : List (Nat × Nat) :=
  findallSpansAux matchLen l.length 0 l

/-- `len(PATTERN.findall(text))`: the number of non-overlapping matches. -/
def findallCount (matchLen : List Char → Option Nat) (l : List Char) : Nat :=
  (findallSpans matchLen l).length

/-- Whether character position `i` lies inside one of the match spans. -/
def coveredBy (spans : List (Nat × Nat)) (i : Nat) : Bool :=
  spans.any fun s => s.1 ≤ i && i < s.1 + s.2

/-! ### The master punctuation pattern -/

/-- Modelled from the spec: the alphabet of the master punctuation pattern
`PUNCTUATIONS` from `ataurus.preparing.rules`, which is not in src; §4.1
takes the total recognized-punctuation count from a master punctuation
pattern, and the §8 scenario counts a run such as `!!!` once. -/
def punctAlphabet : List Char :=
  ['.', ',', ';', ':', '!', '?', '…', '-', '‑', '–', '—', '−',
   '(', ')', '[', ']', '{', '}', '«', '»', '„', '“', '”', '‘', '’', '"',
   Char.ofNat 39, '+', '$', '/', '*', '%', '^', '=']

def isPunctChar (c : Char) : Bool := punctAlphabet.contains c

/-- Auxiliary run counter: `prev` records whether the previous character
was a punctuation character. -/
def punctRunsCountAux : Bool → List Char → Nat
  | _, [] => 0
  | prev, c :: rest =>
    (if isPunctChar c && !prev then 1 else 0) + punctRunsCountAux (isPunctChar c) rest

/-- Modelled from the spec: `len(PUNCTUATIONS.findall(text))`, the number of
maximal runs of punctuation characters (so `!!!` counts once, matching the
§8 scenario total of 2 for the text with one comma and one `!!!` run). -/
def punctRunsCount (l : List Char) : Nat :=
  punctRunsCountAux false l

/-! ### punctuations_distribution (functions.py lines 87-100) -/

/-- `punctuations_distribution(text)` embedded with the Python dict as an
insertion-ordered association list.  The guarded fast path for falsy text
returns `dict.fromkeys(columns, 0)` over the four-element `columns` list in
the source; the main path builds the five-key distribution, each count
divided by the master-pattern count when it is nonzero, else 0. -/
def punctuations_distribution (text : String) : List (String × ℚ) :=
  let columns := ["definitive_puncts", "dividing_puncts", "highlight_puncts", "smiles_puncts"]
  if text = "" then
    columns.map fun c => (c, (0 : ℚ))
  else
    let l := text.toList
    let all_count : Nat := punctRunsCount l
    [("definitive_puncts",
        if all_count ≠ 0 then (findallCount definitiveMatchLen l : ℚ) / all_count else 0),
     ("dividing_puncts",
        if all_count ≠ 0 then (l.countP (fun c => isDividingChar c) : ℚ) / all_count else 0),
     ("highlight_puncts",
        if all_count ≠ 0 then (l.countP (fun c => isHighlightChar c) : ℚ) / all_count else 0),
     ("smiles_puncts",
        if all_count ≠ 0 then (findallCount smilesMatchLen l : ℚ) / all_count else 0),
     ("digits_puncts",
        if all_count ≠ 0 then (l.countP (fun c => isDigitsChar c) : ℚ) / all_count else 0)]

/-! ### pos_distribution (functions.py lines 41-62) -/

/-- Modelled from the spec: the fixed, externally defined enumeration of
POS labels, `list(pymorphy2.MorphAnalyzer().TagClass.PARTS_OF_SPEECH)`
(functions.py line 18); pymorphy2 is the external morphological service
(§6), its POS enumeration the well-known seventeen OpenCorpora tags. -/
def POS : List String :=
  ["NOUN", "ADJF", "ADJS", "COMP", "VERB", "INFN", "PRTF", "PRTS", "GRND",
   "NUMR", "ADVB", "NPRO", "PRED", "PREP", "CONJ", "PRCL", "INTJ"]

/-- `pos_distribution(tokens)` embedded with the external morphological
service as an oracle `posOf` (the source's `morph.parse(x)[0].tag.POS`,
which is `None` on unresolvable tokens).  For each text the resolvable
POS tags are collected, counted, and each label of `POS` mapped to
`counter.get(pos, 0) / all_count`.  The source divides without a zero
guard, so a text with `all_count = 0` raises `ZeroDivisionError`, which
aborts the whole call: embedded as the `none` result. -/
def pos_distribution (posOf : String → Option String) :
    List (List String) → Option (List (List ℚ))
  | [] => some []
  | tokens_ :: rest =>
    let pos_tokens := tokens_.filterMap posOf
    if pos_tokens.length = 0 then none
    else (pos_distribution posOf rest).map fun rows =>
      (POS.map fun pos => (pos_tokens.count pos : ℚ) / pos_tokens.length) :: rows

/-! ### foreign_words_ratio (functions.py lines 65-71) -/

/-- The Cyrillic ranges `а-яА-ЯёЁ` excluded by the `FOREIGN_WORD` class. -/
def isCyrillicChar (c : Char) : Bool :=
  ('а' ≤ c && c ≤ 'я') || ('А' ≤ c && c ≤ 'Я') || c == 'ё' || c == 'Ё'

/-- A word character (Python `\w`): letters, digits or underscore.  The
Unicode class is modelled over the alphabets this repository handles,
ASCII alphanumerics plus the Cyrillic ranges of `FOREIGN_WORD`. -/
def isWordChar (c : Char) : Bool :=
  c.isAlphanum || c == '_' || isCyrillicChar c

/-- The character class `[^\s\d\Wа-яА-ЯёЁ_]` of
`FOREIGN_WORD = re.compile(r"\b[^\s\d\Wа-яА-ЯёЁ_]+\b", re.IGNORECASE)`:
a word character that is not a digit, not an underscore and not Cyrillic. -/
def isForeignLetter (c : Char) : Bool :=
  isWordChar c && !c.isDigit && !(c == '_') && !isCyrillicChar c

/-- `FOREIGN_WORD.search(token)` success: some nonempty block of
foreign-letter characters delimited by word boundaries (`\b`): the
character before the block, if any, is not a word character, and
likewise the character after. -/
def foreignWordSearch (t : String) : Bool :=
  let l := t.toList
  (List.range l.length).any fun i =>
    (List.range (l.length - i)).any fun k =>
      ((List.range (k + 1)).all fun m => isForeignLetter (l.getD (i + m) ' ')) &&
      (i == 0 || !isWordChar (l.getD (i - 1) ' ')) &&
      (i + k + 1 == l.length || !isWordChar (l.getD (i + k + 1) ' '))

/-- `foreign_words_ratio(tokens)`: `None` on the empty list, else the
number of tokens on which `FOREIGN_WORD.search` succeeds over the total
number of tokens. -/
def foreign_words_ratio (tokens : List String) : Option ℚ :=
  if tokens = [] then none
  else some (((tokens.filter fun t => foreignWordSearch t).length : ℚ) / tokens.length)

/-! ### vocabulary_richness (functions.py lines 74-84) -/

/-- `vocabulary_richness(tokens)` with the external lemmatizer as an
oracle `normalForm` (the source's `morph.parse(token)[0].normal_form`):
`None` on the empty list, else the number of distinct normal forms
(`len(Counter(...))`, embedded via `dedup`) over the token count. -/
def vocabulary_richness (normalForm : String → String) (tokens : List String) : Option ℚ :=
  if tokens = [] then none
  else some (((tokens.map normalForm).dedup.length : ℚ) / tokens.length)

/-! ### avg_length (functions.py lines 24-38) -/

/-- `avg_length(items)`: one entry per input sequence, `np.nan` (embedded
as `none`) for an empty sequence, else the sum of element lengths over
the element count.  The `reshape(-1, 1)` keeps one scalar per sequence. -/
def avg_length (items : List (List String)) : List (Option ℚ) :=
  items.map fun items_ =>
    if items_ = [] then none
    else some (((items_.map String.length).sum : ℚ) / items_.length)

/-! ### serialize_model (serialize/model.py lines 5-16) -/

/-- Modelled from the spec: `ataurus.ml.model.Model` lives outside src
(§1 excludes the classifier); its contents are opaque here. -/
structure Model where
  payload : String

/-- A Python value passed to `serialize_model`: either a `Model` instance
or any other object. -/
inductive PyValue where
  | model (m : Model)
  | other (descr : String)

/-- The `isinstance(model, Model)` test. -/
def PyValue.isModel : PyValue → Bool
  | .model _ => true
  | .other _ => false

/-- The filesystem state: file name to contents, `none` when absent. -/
def FS := String → Option String

/-- `open(filename, 'wb')`: creates the file, truncating it to empty. -/
def openWb (fs : FS) (filename : String) : FS :=
  fun n => if n = filename then some "" else fs n

/-- Writing serialized contents to an open file. -/
def writeFile (fs : FS) (filename : String) (content : String) : FS :=
  fun n => if n = filename then some content else fs n

/-- `pickle.dump`'s serialization of a model, opaque. -/
def pickleDump (m : Model) : String := m.payload

/-- `serialize_model(model, filename)` embedded with explicit filesystem
state; the result pairs the final filesystem with the raised error, if
any.  The source checks `isinstance(model, Model)` and raises
`ValueError` before `open` runs; only on a `Model` does it open the file
and dump into it. -/
def serialize_model (obj : PyValue) (filename : String) (fs : FS) : FS × Option String :=
  match obj with
  | .other _ => (fs, some "Serializing model isn't a Model instance")
  | .model m => (writeFile (openWb fs filename) filename (pickleDump m), none)

/-! ### Helper lemmas -/

/-- A mapped sum of natural numbers cast into the rationals. -/
theorem sum_map_natCast {α : Type} (f : α → ℕ) (L : List α) :
    (L.map fun p => ((f p : ℕ) : ℚ)).sum = ((L.map f).sum : ℚ) := by
  induction L with
  | nil => simp
  | cons a L ih => simp [ih]

/-- A mapped sum of terms with a common divisor. -/
theorem sum_map_div {α : Type} (g : α → ℚ) (N : ℚ) (L : List α) :
    (L.map fun p => g p / N).sum = (L.map g).sum / N := by
  induction L with
  | nil => simp
  | cons a L ih => simp [ih, add_div]

/-- A mapped sum of pointwise sums splits. -/
theorem sum_map_add {α : Type} (f g : α → ℕ) (L : List α) :
    (L.map fun p => f p + g p).sum = (L.map f).sum + (L.map g).sum := by
  induction L with
  | nil => simp
  | cons a L ih => simp [ih]; omega

/-- The indicator sum over a list avoiding `a` vanishes. -/
theorem sum_map_ite_eq_zero {a : String} :
    ∀ {L : List String}, a ∉ L → (L.map fun p => if p = a then (1 : ℕ) else 0).sum = 0
  | [], _ => rfl
  | b :: L, h => by
    have hb : ¬b = a := fun e => h (e ▸ List.mem_cons_self b L)
    have hL : a ∉ L := fun hm => h (List.mem_cons_of_mem b hm)
    simp [hb, sum_map_ite_eq_zero hL]

/-- The indicator sum over a duplicate-free list containing `a` is one. -/
theorem sum_map_ite_eq_one (a : String) :
    ∀ L : List String, L.Nodup → a ∈ L →
      (L.map fun p => if p = a then (1 : ℕ) else 0).sum = 1
  | [], _, ha => absurd ha (List.not_mem_nil a)
  | b :: L, hnd, ha => by
    rcases List.mem_cons.1 ha with h | h
    · subst h
      have hna : a ∉ L := (List.nodup_cons.1 hnd).1
      simp [sum_map_ite_eq_zero hna]
    · have hb : ¬b = a := fun e => (List.nodup_cons.1 hnd).1 (e ▸ h)
      simp [hb, sum_map_ite_eq_one a L (List.nodup_cons.1 hnd).2 h]

/-- Summing the occurrence counts of the members of a duplicate-free list
covering every element recovers the length. -/
theorem count_sum_eq_length (L : List String) (hnd : L.Nodup) :
    ∀ l : List String, (∀ x ∈ l, x ∈ L) →
      (L.map fun p => l.count p).sum = l.length
  | [], _ => by simp
  | a :: l, hsub => by
    have ha : a ∈ L := hsub a (List.mem_cons_self a l)
    have hsub' : ∀ x ∈ l, x ∈ L := fun x hx => hsub x (List.mem_cons_of_mem a hx)
    have hcnt : ∀ p : String, (a :: l).count p = l.count p + if p = a then 1 else 0 := by
      intro p
      rw [List.count_cons]
      simp only [beq_iff_eq]
      by_cases hpa : p = a
      · simp [hpa]
      · rw [if_neg hpa, if_neg (fun e : a = p => hpa e.symm)]
    calc (L.map fun p => (a :: l).count p).sum
        = (L.map fun p => l.count p + if p = a then 1 else 0).sum := by simp only [hcnt]
      _ = (L.map fun p => l.count p).sum
            + (L.map fun p => if p = a then (1 : ℕ) else 0).sum :=
          sum_map_add (fun p => l.count p) (fun p => if p = a then 1 else 0) L
      _ = l.length + 1 := by
          rw [count_sum_eq_length L hnd l hsub', sum_map_ite_eq_one a L hnd ha]
      _ = (a :: l).length := by simp

/-- The fixed POS enumeration is duplicate-free. -/
theorem pos_nodup : POS.Nodup := by decide

/-- On a batch whose every text has a resolvable token, `pos_distribution`
succeeds with one row per text built over the fixed `POS` list. -/
theorem pos_distribution_eq (posOf : String → Option String) :
    ∀ batch : List (List String), (∀ tk ∈ batch, (tk.filterMap posOf).length ≠ 0) →
      pos_distribution posOf batch =
        some (batch.map fun tk =>
          POS.map fun pos =>
            ((tk.filterMap posOf).count pos : ℚ) / (tk.filterMap posOf).length)
  | [], _ => rfl
  | tk :: rest, hres => by
    have h1 : (tk.filterMap posOf).length ≠ 0 := hres tk (List.mem_cons_self tk rest)
    have h2 := pos_distribution_eq posOf rest
      (fun x hx => hres x (List.mem_cons_of_mem tk hx))
    simp only [pos_distribution]
    rw [if_neg h1, h2]
    rfl

/-- A single resolvable text's POS row sums to one when the oracle's
labels lie in the fixed `POS` list. -/
theorem pos_row_sum_one (posOf : String → Option String) (tk : List String)
    (h1 : (tk.filterMap posOf).length ≠ 0)
    (hrange : ∀ t p, posOf t = some p → p ∈ POS) :
    (POS.map fun pos =>
      ((tk.filterMap posOf).count pos : ℚ) / (tk.filterMap posOf).length).sum = 1 := by
  have hmem : ∀ x ∈ tk.filterMap posOf, x ∈ POS := by
    intro x hx
    rcases List.mem_filterMap.1 hx with ⟨t, -, ht⟩
    exact hrange t x ht
  have hN : (((tk.filterMap posOf).length : ℚ)) ≠ 0 := by exact_mod_cast h1
  rw [sum_map_div (fun pos => ((tk.filterMap posOf).count pos : ℚ))
      ((tk.filterMap posOf).length : ℚ) POS]
  rw [sum_map_natCast (fun pos => (tk.filterMap posOf).count pos) POS]
  rw [count_sum_eq_length POS pos_nodup (tk.filterMap posOf) hmem]
  exact div_self hN

/-! ### Claim theorems -/

/-- C1: contrary to the claim, a text that yields zero resolvable-POS
tokens does not get a sentinel row: the source divides by the zero
`all_count` and the `ZeroDivisionError` aborts the whole call (embedded
as `none`), both for a text of unresolvable tokens and for a text with an
empty token list. -/
theorem pos_distribution_zero_resolvable_raises :
    (∀ posOf : String → Option String, pos_distribution posOf [[]] = none) ∧
    pos_distribution (fun _ => none) [[","]] = none :=
  ⟨fun _ => rfl, rfl⟩

/-- C2: on the §8 scenario text the `DEFINITIVE_PUNCTS` findall returns 6
matches, not 1 — its first branch `(...)` has unescaped dots and matches
any three characters — so the definitive ratio is 3, not the claimed 0.5;
the dividing ratio is the claimed 0.5. -/
theorem punctuations_distribution_scenario_definitive :
    punctuations_distribution "Привет, мир!!!" =
      [("definitive_puncts", 3), ("dividing_puncts", 1/2), ("highlight_puncts", 0),
       ("smiles_puncts", 0), ("digits_puncts", 0)] ∧
    findallCount definitiveMatchLen "Привет, мир!!!".toList = 6 := by
  constructor
  · have h1 : findallCount definitiveMatchLen "Привет, мир!!!".toList = 6 := by decide
    have h2 : punctRunsCount "Привет, мир!!!".toList = 2 := by decide
    have h3 : "Привет, мир!!!".toList.countP (fun c => isDividingChar c) = 1 := by decide
    have h4 : "Привет, мир!!!".toList.countP (fun c => isHighlightChar c) = 0 := by decide
    have h5 : findallCount smilesMatchLen "Привет, мир!!!".toList = 0 := by decide
    have h6 : "Привет, мир!!!".toList.countP (fun c => isDigitsChar c) = 0 := by decide
    rw [punctuations_distribution]
    rw [if_neg (by decide)]
    simp only [h1, h2, h3, h4, h5, h6]
    norm_num
  · decide

/-- C3: a non-empty zero-punctuation text gets all five categories mapped
to 0, but the guarded fast path for the empty text returns only the four
keys of the source's `columns` list — `digits_puncts` is absent — so the
two paths do not return the same mapping. -/
theorem punctuations_distribution_empty_text_columns :
    punctuations_distribution "а" =
      [("definitive_puncts", 0), ("dividing_puncts", 0), ("highlight_puncts", 0),
       ("smiles_puncts", 0), ("digits_puncts", 0)] ∧
    punctuations_distribution "" =
      [("definitive_puncts", 0), ("dividing_puncts", 0), ("highlight_puncts", 0),
       ("smiles_puncts", 0)] ∧
    (punctuations_distribution "").lookup "digits_puncts" = none := by
  exact ⟨by decide, by decide, by decide⟩

/-- C4 counterexample: on the text `абвг.` the master pattern counts one
punctuation run while the definitive pattern (unescaped-dot branch)
finds two matches, so the definitive ratio is 2, outside `[0, 1]`. -/
theorem punctuations_distribution_definitive_gt_one :
    (punctuations_distribution "абвг.").lookup "definitive_puncts" = some 2 ∧
    ¬((2 : ℚ) ≤ 1) := by
  have h1 : findallCount definitiveMatchLen "абвг.".toList = 2 := by decide
  have h2 : punctRunsCount "абвг.".toList = 1 := by decide
  have h3 : "абвг.".toList.countP (fun c => isDividingChar c) = 0 := by decide
  have h4 : "абвг.".toList.countP (fun c => isHighlightChar c) = 0 := by decide
  have h5 : findallCount smilesMatchLen "абвг.".toList = 0 := by decide
  have h6 : "абвг.".toList.countP (fun c => isDigitsChar c) = 0 := by decide
  have hlist : punctuations_distribution "абвг." =
      [("definitive_puncts", 2), ("dividing_puncts", 0), ("highlight_puncts", 0),
       ("smiles_puncts", 0), ("digits_puncts", 0)] := by
    rw [punctuations_distribution]
    rw [if_neg (by decide)]
    simp only [h1, h2, h3, h4, h5, h6]
    norm_num
  rw [hlist]
  exact ⟨rfl, by norm_num⟩

/-- C4 amended: every value of `punctuations_distribution` is a
nonnegative rational (each category count divided by the common
master-pattern denominator, or 0 on the zero guard), but a ratio can
exceed 1. -/
theorem punctuations_distribution_values_nonneg (text : String) (p : String × ℚ)
    (hp : p ∈ punctuations_distribution text) : 0 ≤ p.2 := by
  simp only [punctuations_distribution] at hp
  by_cases ht : text = ""
  · rw [if_pos ht] at hp
    simp only [List.mem_map] at hp
    obtain ⟨c, -, rfl⟩ := hp
    exact le_refl 0
  · rw [if_neg ht] at hp
    simp only [List.mem_cons, List.not_mem_nil, or_false] at hp
    rcases hp with rfl | rfl | rfl | rfl | rfl
    all_goals
      dsimp only
      split
      · exact div_nonneg (Nat.cast_nonneg _) (Nat.cast_nonneg _)
      · exact le_refl 0

/-- C4 amended, witness: the `definitive_puncts` entry of the
zero-punctuation text `а` is nonnegative. -/
theorem punctuations_distribution_values_nonneg_witness :
    (("definitive_puncts", (0 : ℚ)) ∈ punctuations_distribution "а") ∧
    (0 : ℚ) ≤ ("definitive_puncts", (0 : ℚ)).2 :=
  ⟨by decide, punctuations_distribution_values_nonneg "а" _ (by decide)⟩

/-- C5: the category patterns do not partition the text: in `,,,` the
comma at position 0 is a punctuation character that lies inside a
definitive match (the unescaped-dot branch of `DEFINITIVE_PUNCTS`
consumes the three commas) and is also matched by the dividing class. -/
theorem definitive_dividing_overlap :
    coveredBy (findallSpans definitiveMatchLen ",,,".toList) 0 = true ∧
    isDividingChar (",,,".toList.getD 0 ' ') = true ∧
    isPunctChar (",,,".toList.getD 0 ' ') = true := by
  exact ⟨by decide, by decide, by decide⟩

/-- C6: on a batch whose texts all have at least one resolvable-POS token
and whose oracle only emits labels of the fixed `POS` list,
`pos_distribution` returns one row per text, with one column per `POS`
label holding that label's count over the text's resolvable count, and
every row sums to 1. -/
theorem pos_distribution_resolvable_rows (posOf : String → Option String)
    (batch : List (List String))
    (hres : ∀ tk ∈ batch, (tk.filterMap posOf).length ≠ 0)
    (hrange : ∀ t p, posOf t = some p → p ∈ POS) :
    pos_distribution posOf batch =
      some (batch.map fun tk =>
        POS.map fun pos =>
          ((tk.filterMap posOf).count pos : ℚ) / (tk.filterMap posOf).length) ∧
    ∀ tk ∈ batch,
      (POS.map fun pos =>
        ((tk.filterMap posOf).count pos : ℚ) / (tk.filterMap posOf).length).sum = 1 :=
  ⟨pos_distribution_eq posOf batch hres,
   fun tk htk => pos_row_sum_one posOf tk (hres tk htk) hrange⟩

/-- C6 witness: a one-text batch under an oracle that tags every token
`NOUN` gets a defined distribution whose row sums to 1. -/
theorem pos_distribution_resolvable_rows_witness :
    pos_distribution (fun _ => some "NOUN") [["мама"]] =
      some ([["мама"]].map fun tk =>
        POS.map fun pos =>
          (((tk.filterMap fun _ => some "NOUN").count pos : ℚ) /
            (tk.filterMap fun _ => some "NOUN").length)) ∧
    ∀ tk ∈ [["мама"]],
      ((POS.map fun pos =>
        (((tk.filterMap fun _ => some "NOUN").count pos : ℚ) /
          (tk.filterMap fun _ => some "NOUN").length)).sum) = 1 :=
  pos_distribution_resolvable_rows (fun _ => some "NOUN") [["мама"]]
    (by decide) (fun t p h => by cases h; decide)

/-- C7: `vocabulary_richness` returns the sentinel on the empty token
list; on a non-empty list it returns the number of distinct normal forms
over the token count, which lies in `(0, 1]` and equals 1 exactly when
the normal forms are pairwise distinct. -/
theorem vocabulary_richness_range (f : String → String) (tokens : List String)
    (h : tokens ≠ []) :
    vocabulary_richness f [] = none ∧
    ∃ q : ℚ, vocabulary_richness f tokens = some q ∧
      q = (((tokens.map f).dedup.length : ℚ) / tokens.length) ∧
      0 < q ∧ q ≤ 1 ∧ (q = 1 ↔ (tokens.map f).Nodup) := by
  refine ⟨rfl, _, ?_, rfl, ?_, ?_, ?_⟩
  · rw [vocabulary_richness, if_neg h]
  · have hn : 0 < tokens.length := List.length_pos.2 h
    have hmapne : tokens.map f ≠ [] := fun e => h (List.map_eq_nil_iff.1 e)
    have hd : 0 < (tokens.map f).dedup.length :=
      List.length_pos.2 fun e => hmapne ((List.dedup_eq_nil _).1 e)
    exact div_pos (by exact_mod_cast hd) (by exact_mod_cast hn)
  · have hn : 0 < tokens.length := List.length_pos.2 h
    have hdn : (tokens.map f).dedup.length ≤ tokens.length :=
      le_trans (List.Sublist.length_le (List.dedup_sublist _))
        (le_of_eq (List.length_map tokens f))
    rw [div_le_one (by exact_mod_cast hn)]
    exact_mod_cast hdn
  · have hn : 0 < tokens.length := List.length_pos.2 h
    have hQ : ((tokens.length : ℚ)) ≠ 0 := by
      exact_mod_cast Nat.pos_iff_ne_zero.1 hn
    rw [div_eq_one_iff_eq hQ]
    rw [show (((tokens.map f).dedup.length : ℚ) = (tokens.length : ℚ)) ↔
        ((tokens.map f).dedup.length = tokens.length) from Nat.cast_inj]
    constructor
    · intro hlen
      have hdedup : (tokens.map f).dedup = tokens.map f :=
        List.Sublist.eq_of_length (List.dedup_sublist _)
          (by rw [hlen, List.length_map])
      rw [← hdedup]
      exact List.nodup_dedup _
    · intro hnd
      rw [List.dedup_eq_self.2 hnd, List.length_map]

/-- C7 witness: two tokens with distinct normal forms under the identity
lemmatizer give richness 1. -/
theorem vocabulary_richness_range_witness :
    (["мама", "мыла"] : List String) ≠ [] ∧
    ∃ q : ℚ, vocabulary_richness id ["мама", "мыла"] = some q ∧ 0 < q ∧ q ≤ 1 := by
  have h := vocabulary_richness_range id ["мама", "мыла"] (by decide)
  obtain ⟨-, q, hq, -, h1, h2, -⟩ := h
  exact ⟨by decide, q, hq, h1, h2⟩

/-- C8: `foreign_words_ratio` returns the sentinel exactly on the empty
token list; on a non-empty list it is the number of tokens matched by the
foreign-word pattern over the token count, which lies in `[0, 1]`; on
`["hello", "мир"]` the Latin token matches and the Cyrillic one does
not, giving 0.5. -/
theorem foreign_words_ratio_range (tokens : List String) (h : tokens ≠ []) :
    foreign_words_ratio [] = none ∧
    (∃ q : ℚ, foreign_words_ratio tokens = some q ∧
      q = (((tokens.filter fun t => foreignWordSearch t).length : ℚ) / tokens.length) ∧
      0 ≤ q ∧ q ≤ 1) ∧
    foreign_words_ratio ["hello", "мир"] = some (1/2) := by
  refine ⟨rfl, ⟨_, ?_, rfl, ?_, ?_⟩, ?_⟩
  · rw [foreign_words_ratio, if_neg h]
  · exact div_nonneg (Nat.cast_nonneg _) (Nat.cast_nonneg _)
  · have hn : 0 < tokens.length := List.length_pos.2 h
    rw [div_le_one (by exact_mod_cast hn)]
    exact_mod_cast List.length_filter_le _ tokens
  · rw [foreign_words_ratio, if_neg (by decide)]
    norm_num [show (["hello", "мир"].filter fun t => foreignWordSearch t) = ["hello"]
      from by decide]

/-- C8 witness: the singleton token list `["hello"]` gets a defined ratio
in `[0, 1]`. -/
theorem foreign_words_ratio_range_witness :
    (["hello"] : List String) ≠ [] ∧
    ∃ q : ℚ, foreign_words_ratio ["hello"] = some q ∧ 0 ≤ q ∧ q ≤ 1 := by
  have h := foreign_words_ratio_range ["hello"] (by decide)
  obtain ⟨-, ⟨q, hq, -, h1, h2⟩, -⟩ := h
  exact ⟨by decide, q, hq, h1, h2⟩

/-- C9: `avg_length` returns one scalar per input sequence, and in every
batch, at every position, a non-empty sequence's entry is the mean
character-length of its elements while the empty sequence's entry is the
sentinel, not zero: `[[]]` maps to `[none]` and `[["a", "bb"]]` to
`[some 1.5]`. -/
theorem avg_length_spec :
    (∀ items : List (List String), (avg_length items).length = items.length) ∧
    (∀ (pre post : List (List String)) (seq : List String),
      avg_length (pre ++ seq :: post) =
        avg_length pre ++
          (if seq = [] then none
           else some (((seq.map String.length).sum : ℚ) / seq.length)) :: avg_length post) ∧
    (∀ (s : String) (rest : List String),
      avg_length [s :: rest] =
        [some ((((s :: rest).map String.length).sum : ℚ) / ((rest.length : ℚ) + 1))]) ∧
    avg_length [[]] = [none] ∧
    avg_length [["a", "bb"]] = [some (3/2)] := by
  refine ⟨?_, ?_, ?_, by decide, ?_⟩
  · intro items
    rw [avg_length, List.length_map]
  · intro pre post seq
    rw [avg_length, avg_length, avg_length, List.map_append, List.map_cons]
  · intro s rest
    rw [avg_length]
    simp only [List.map]
    rw [if_neg (List.cons_ne_nil s rest)]
    have : (((s :: rest).length : ℕ) : ℚ) = (rest.length : ℚ) + 1 := by
      rw [List.length_cons]
      push_cast
      ring
    rw [this]
  · rw [avg_length]
    simp only [List.map]
    rw [if_neg (by decide)]
    simp only [show "a".length = 1 from by decide, show "bb".length = 2 from by decide]
    norm_num

/-- C10: `serialize_model` raises `ValueError` on any argument that is
not a `Model` instance, and the check precedes `open`, so the filesystem
is untouched: no file is created or modified. -/
theorem serialize_model_type_check (obj : PyValue) (filename : String) (fs : FS)
    (h : obj.isModel = false) :
    serialize_model obj filename fs =
      (fs, some "Serializing model isn't a Model instance") ∧
    ∀ n, (serialize_model obj filename fs).1 n = fs n := by
  cases obj with
  | model m => exact absurd h (by simp [PyValue.isModel])
  | other d => exact ⟨rfl, fun _ => rfl⟩

/-- C10 witness: serializing the non-`Model` value `"42"` into an empty
filesystem errors and leaves the filesystem empty. -/
theorem serialize_model_type_check_witness :
    (PyValue.other "42").isModel = false ∧
    serialize_model (PyValue.other "42") "model.pickle" (fun _ => none) =
      ((fun _ => none : FS), some "Serializing model isn't a Model instance") :=
  ⟨rfl,
   (serialize_model_type_check (PyValue.other "42") "model.pickle" (fun _ => none) rfl).1⟩

end Ataurus
